import Mathlib

/-
  Verification of the OpenAPI-to-tool compiler of the medusa-mcp repository.

  The embedding follows the three source files:
  - src/services/medusa-admin  (MedusaAdminService: resolveSchemaRef, wrapPath,
    convertSchemaPropertyToZod, the invocation handler)
  - src/services/medusa-store  (MedusaStoreService: the near-identical public surface)
  - src/index.ts               (tool assembly, admin-login fallback, allow-list filter)

  JavaScript values are modelled as follows: possibly-undefined fields are Option,
  string truthiness is jsTruthyS (undefined and "" are falsy), objects used as
  string-keyed maps are association lists with JavaScript assignment semantics
  (existing key updated in place, new key appended), and String.prototype.replace
  with a string pattern is replaceFirst (first occurrence only).  Zod validator
  values are the inductive ZodType; z.any() is zAny, .optional() wraps with
  zOptional.  The recursive schema compiler is written with explicit fuel because
  the source recursion does not terminate on cyclic schema tables; a result of
  none means the fuel bound was reached, never a value of the program.
-/

namespace MedusaMcp

/-! ## Character-level string helpers (kernel-reducible) -/

/-- If the pattern list is a prefix of the second list, return the remainder. -/
def stripPre : List Char → List Char → Option (List Char)
  | [], s => some s
  | _ :: _, [] => none
  | p :: ps, c :: cs => if p = c then stripPre ps cs else none

/-- Replace the first occurrence of pat in the character list by rep
    (the semantics of JavaScript String.prototype.replace with a string pattern). -/
def replaceFirstAux (pat rep : List Char) : List Char → List Char
  | [] =>
    match stripPre pat [] with
    | some rest => rep ++ rest
    | none => []
  | c :: cs =>
    match stripPre pat (c :: cs) with
    | some rest => rep ++ rest
    | none => c :: replaceFirstAux pat rep cs

/-- JavaScript s.replace(pat, rep): replace only the first occurrence. -/
def replaceFirst (s pat rep : String) : String :=
  ⟨replaceFirstAux pat.data rep.data s.data⟩

/-- Substring test helper over character lists. -/
def hasSubAux (pat : List Char) : List Char → Bool
  | [] => (stripPre pat []).isSome
  | c :: cs => (stripPre pat (c :: cs)).isSome || hasSubAux pat cs

/-- Whether sub occurs as a substring of s. -/
def jsIncludes (s sub : String) : Bool := hasSubAux sub.data s.data

/-- JavaScript truthiness of a possibly-undefined string: undefined and "" are falsy. -/
def jsTruthyS : Option String → Bool
  | none => false
  | some s => s != ""

/-- JavaScript template-literal stringification of a possibly-undefined string:
    an undefined value interpolates as the literal text "undefined". -/
def jsUndefStr : Option String → String
  | some s => s
  | none => "undefined"

/-! ## Schema nodes and Zod validator values -/

/-- One schema fragment of the interface document, restricted to the fields the
    source reads: $ref, type, items, properties, required. -/
inductive SchemaNode : Type where
  | mk (ref? : Option String) (type? : Option String)
       (items? : Option SchemaNode)
       (properties? : Option (List (String × SchemaNode)))
       (required? : Option (List String)) : SchemaNode

def SchemaNode.ref? : SchemaNode → Option String
  | .mk r _ _ _ _ => r

def SchemaNode.type? : SchemaNode → Option String
  | .mk _ t _ _ _ => t

def SchemaNode.items? : SchemaNode → Option SchemaNode
  | .mk _ _ i _ _ => i

def SchemaNode.properties? : SchemaNode → Option (List (String × SchemaNode))
  | .mk _ _ _ p _ => p

def SchemaNode.required? : SchemaNode → Option (List String)
  | .mk _ _ _ _ r => r

/-- The document's schema table: components.schemas, as name-to-node entries. -/
abbrev SchemaDoc := List (String × SchemaNode)

/-- Compiled Zod validator values, as built by convertSchemaPropertyToZod:
    z.any(), z.string(), z.number(), z.boolean(), z.array(t), z.object(fields),
    and t.optional(). -/
inductive ZodType : Type where
  | zAny
  | zString
  | zNumber
  | zBoolean
  | zArray (item : ZodType)
  | zObject (fields : List (String × ZodType))
  | zOptional (inner : ZodType)

/-- Whether a validator is optional at its top level (a .optional() wrapper). -/
def isOptTop : ZodType → Bool
  | .zOptional _ => true
  | _ => false

/-- The final step of convertSchemaPropertyToZod:
    makeOptional ? zodSchema.optional() : zodSchema. -/
def optWrap (b : Bool) (z : ZodType) : ZodType := if b then .zOptional z else z

/-- resolvedProp.required?.includes(key): undefined required lists are falsy. -/
def reqContains : Option (List String) → String → Bool
  | some l, k => l.contains k
  | none, _ => false

/-! ## Schema reference resolution (resolveSchemaRef, both services) -/

/-- schema.$ref.replace('#/components/schemas/', ''): strip the table prefix
    (first occurrence, as String.prototype.replace does). -/
def refNameOf (r : String) : String :=
  replaceFirst r "#/components/schemas/" ""

/-- resolveSchemaRef(schema, doc): null stays null; a node with a truthy $ref is
    looked up in components.schemas (a miss gives null); any other node is
    returned unchanged. -/
def resolveSchemaRef (doc : SchemaDoc) : Option SchemaNode → Option SchemaNode
  | none => none
  | some s =>
    if jsTruthyS s.ref? then List.lookup (refNameOf (s.ref?.getD "")) doc else some s

/-- The in-place resolution performed at the head of convertSchemaPropertyToZod
    and on array items: resolve only when the $ref field is truthy. -/
def resolveStep (doc : SchemaDoc) (prop : SchemaNode) : Option SchemaNode :=
  if jsTruthyS prop.ref? then resolveSchemaRef doc (some prop) else some prop

/-! ## Recursive schema-to-Zod compilation (convertSchemaPropertyToZod) -/

/-- The case labels of the switch on resolvedProp.type. -/
inductive STag : Type where
  | tString | tNumber | tBoolean | tArray | tObject | tOther

/-- Dispatch of the switch statement: "number" and "integer" share a case;
    any other or missing type value falls to the default case. -/
def typeTag : Option String → STag
  | some "string" => .tString
  | some "number" => .tNumber
  | some "integer" => .tNumber
  | some "boolean" => .tBoolean
  | some "array" => .tArray
  | some "object" => .tObject
  | _ => .tOther

/-- Object.entries(resolvedProp.properties).reduce(...): convert each declared
    property with makeOptional = !(required includes key), keeping document
    order; none propagates fuel exhaustion of a recursive call. -/
def mapFields (cnv : SchemaNode → Bool → Option ZodType) (req? : Option (List String)) :
    List (String × SchemaNode) → Option (List (String × ZodType))
  | [] => some []
  | (k, v) :: rest =>
    match cnv v (!(reqContains req? k)) with
    | none => none
    | some z => (mapFields cnv req? rest).map (fun tl => (k, z) :: tl)

/-- convertSchemaPropertyToZod before its final optional wrap.  Identical in the
    admin and store services up to the document used.  Fuel bounds recursion
    depth (the source recursion is unbounded on cyclic schema tables); none
    means the bound was reached. -/
def convertCore (doc : SchemaDoc) : Nat → Option SchemaNode → Option ZodType
  | 0, _ => none
  | _ + 1, none => some .zAny
  | fuel + 1, some prop =>
    match resolveStep doc prop with
    | none => some .zAny
    | some rp =>
      match typeTag rp.type? with
      | .tString => some .zString
      | .tNumber => some .zNumber
      | .tBoolean => some .zBoolean
      | .tArray =>
        match rp.items? with
        | some it0 =>
          match resolveStep doc it0 with
          | some it =>
            (convertCore doc fuel (some it)).map (fun z => ZodType.zArray (optWrap false z))
          | none => some (ZodType.zArray .zAny)
        | none => some (ZodType.zArray .zAny)
      | .tObject =>
        match rp.properties? with
        | some props =>
          (mapFields (fun v mo => (convertCore doc fuel (some v)).map (optWrap mo))
            rp.required? props).map ZodType.zObject
        | none => some (ZodType.zObject [])
      | .tOther => some .zAny

/-- convertSchemaPropertyToZod(prop, makeOptional): the shape computed by
    convertCore, wrapped .optional() iff makeOptional. -/
def convert (doc : SchemaDoc) (fuel : Nat) (p? : Option SchemaNode) (mo : Bool) :
    Option ZodType :=
  (convertCore doc fuel p?).map (optWrap mo)

/-! ## Operations, path items, tool compilation (wrapPath) -/

/-- One declared operation parameter: name, location (the JSON field named in),
    and its schema. -/
structure Parameter : Type where
  name : String
  loc : String
  schema? : Option SchemaNode

/-- One operation of a path item, restricted to the fields the source reads.
    rbJsonSchema? models requestBody.content.application-json.schema. -/
structure Operation : Type where
  operationId : Option String
  description : Option String
  parameters : Option (List Parameter)
  rbJsonSchema? : Option SchemaNode

/-- A path item: at most one operation per method among get, post, delete. -/
structure PathItem : Type where
  get? : Option Operation
  post? : Option Operation
  delete? : Option Operation

/-- The runtime value of the local variable named parameters in wrapPath:
    a list, or the string "" (admin get branch writes parameters ?? ""), or
    undefined (store get branch copies a missing field verbatim). -/
inductive ParamsVal : Type where
  | list (ps : List Parameter)
  | emptyStr
  | undef

/-- Errors raised during wrapPath: an explicit throw new Error(msg), or a
    JavaScript TypeError raised by calling .filter on a non-array. -/
inductive CompileError : Type where
  | jsError (msg : String)
  | typeError (msg : String)

/-- The compiled tool record: the fields of the returned object literal plus the
    data the handler closure captures (method, path template, raw parameter
    list, declared body-field names). -/
structure MTool : Type where
  name : String
  description? : Option String
  inputSchema : List (String × ZodType)
  method : String
  refPath : String
  parameters : List Parameter
  bodyNames : List String

/-- Admin operation selection: the if/else chain on "get" in refFunction,
    then "post", then "delete". -/
def adminSelect (pi : PathItem) : Option (String × Operation) :=
  match pi.get? with
  | some op => some ("get", op)
  | none =>
    match pi.post? with
    | some op => some ("post", op)
    | none =>
      match pi.delete? with
      | some op => some ("delete", op)
      | none => none

/-- Store operation selection: the store service checks only "get" and "post". -/
def storeSelect (pi : PathItem) : Option (String × Operation) :=
  match pi.get? with
  | some op => some ("get", op)
  | none =>
    match pi.post? with
    | some op => some ("post", op)
    | none => none

/-- The operation identifier the admin name check sees (undefined when no
    recognized method is present). -/
def adminSelName (pi : PathItem) : Option String :=
  match adminSelect pi with
  | some (_, op) => op.operationId
  | none => none

/-- The operation identifier the store name check sees. -/
def storeSelName (pi : PathItem) : Option String :=
  match storeSelect pi with
  | some (_, op) => op.operationId
  | none => none

/-- JavaScript object assignment obj.k = v on an association-list map: an
    existing key is updated in place, a new key is appended. -/
def jsSet {α : Type} (m : List (String × α)) (k : String) (v : α) : List (String × α) :=
  if (m.lookup k).isSome then m.map (fun kv => if kv.1 = k then (k, v) else kv)
  else m ++ [(k, v)]

/-- JavaScript object spread merge of two maps: keys of b are assigned over a,
    so a body field overwrites a same-named parameter field. -/
def jsMerge {α : Type} (a b : List (String × α)) : List (String × α) :=
  b.foldl (fun m kv => jsSet m kv.1 kv.2) a

/-- parameterSchema: the non-header parameters reduced into a map of converted
    schemas (convertSchemaPropertyToZod with its default makeOptional = true). -/
def buildParamSchema (doc : SchemaDoc) (fuel : Nat) (ps : List Parameter) :
    Option (List (String × ZodType)) :=
  ps.foldlM (fun acc p => (convert doc fuel p.schema? true).map (fun z => jsSet acc p.name z)) []

/-- bodySchema: the resolved request-body schema's properties reduced into a map
    of converted schemas; absent schema or properties gives the empty map. -/
def buildBodySchema (doc : SchemaDoc) (fuel : Nat) (rbs? : Option SchemaNode) :
    Option (List (String × ZodType)) :=
  match rbs? with
  | some rb =>
    match rb.properties? with
    | some props =>
      props.foldlM
        (fun acc kv => (convert doc fuel (some kv.2) true).map (fun z => jsSet acc kv.1 z)) []
    | none => some []
  | none => some []

/-- bodyPropertyNames: the keys of the resolved request-body schema's
    properties, or the empty set. -/
def bodyNamesOf : Option SchemaNode → List String
  | some rb => ((SchemaNode.properties? rb).getD []).map Prod.fst
  | none => []

/-- The admin tool description template: a fixed preamble followed by the
    template-literal interpolation of the declared description. -/
def adminDescr (d? : Option String) : String :=
  "This tool helps store administors. " ++ jsUndefStr d?

/-- The state of wrapPath's local variables (method, name, description,
    parameters, requestBodySchema) after the admin service's if/else chain on
    "get" in refFunction, "post", "delete".  The get branch writes
    parameters ?? "", so a get operation without a declared parameter list
    leaves the string "" in the parameters variable; post and delete use ?? [].
    Only the post branch inspects and resolves the request-body schema. -/
def adminSel5 (doc : SchemaDoc) (pi : PathItem) :
    String × Option String × Option String × ParamsVal × Option SchemaNode :=
  match pi.get? with
  | some op =>
    ("get", op.operationId, op.description,
      (match op.parameters with
       | some ps => ParamsVal.list ps
       | none => ParamsVal.emptyStr), none)
  | none =>
    match pi.post? with
    | some op =>
      ("post", op.operationId, op.description, ParamsVal.list (op.parameters.getD []),
        (match op.rbJsonSchema? with
         | some s => resolveSchemaRef doc (some s)
         | none => none))
    | none =>
      match pi.delete? with
      | some op =>
        ("delete", op.operationId, op.description, ParamsVal.list (op.parameters.getD []), none)
      | none => ("get", none, none, ParamsVal.list [], none)

/-- The same local-variable state for the store service, whose chain checks only
    "get" and "post"; its get branch copies a missing parameters field verbatim
    (undefined), and a path with neither method keeps the initial values. -/
def storeSel5 (doc : SchemaDoc) (pi : PathItem) :
    String × Option String × Option String × ParamsVal × Option SchemaNode :=
  match pi.get? with
  | some op =>
    ("get", op.operationId, op.description,
      (match op.parameters with
       | some ps => ParamsVal.list ps
       | none => ParamsVal.undef), none)
  | none =>
    match pi.post? with
    | some op =>
      ("post", op.operationId, op.description, ParamsVal.list (op.parameters.getD []),
        (match op.rbJsonSchema? with
         | some s => resolveSchemaRef doc (some s)
         | none => none))
    | none => ("get", none, none, ParamsVal.list [], none)

/-- The part of wrapPath after method selection, shared by both services up to
    the no-name message, the tool-name decoration and the description policy:
    check the operation identifier, build parameterSchema over the non-header
    parameters, build bodySchema, and return the tool record.  The outer Option
    is fuel exhaustion of the schema compiler; the Except carries raised
    errors. -/
def compileAfterSel (doc : SchemaDoc) (fuel : Nat) (noNameMsg : String)
    (mkName : String → String) (mkDescr : Option String → Option String) (refPath : String)
    (sel : String × Option String × Option String × ParamsVal × Option SchemaNode) :
    Option (Except CompileError MTool) :=
  match sel with
  | (method, name?, desc?, paramsV, rbs?) =>
    if jsTruthyS name? then
      match paramsV with
      | ParamsVal.emptyStr =>
        some (Except.error (CompileError.typeError "parameters.filter is not a function"))
      | ParamsVal.undef =>
        some (Except.error (CompileError.typeError
          "Cannot read properties of undefined (reading filter)"))
      | ParamsVal.list ps =>
        match buildParamSchema doc fuel (ps.filter (fun p => p.loc != "header")) with
        | none => none
        | some pSchema =>
          match buildBodySchema doc fuel rbs? with
          | none => none
          | some bSchema =>
            some (Except.ok
              { name := mkName (name?.getD "")
                description? := mkDescr desc?
                inputSchema := jsMerge pSchema bSchema
                method := method
                refPath := refPath
                parameters := ps
                bodyNames := bodyNamesOf rbs? })
    else some (Except.error (CompileError.jsError noNameMsg))

/-- MedusaAdminService.wrapPath, compile-time part: the admin selection chain,
    the path-bearing no-name message, the Admin name decoration, and the fixed
    description preamble. -/
def adminCompile (doc : SchemaDoc) (fuel : Nat) (refPath : String) (pi : PathItem) :
    Option (Except CompileError MTool) :=
  compileAfterSel doc fuel ("No name found for path: " ++ refPath)
    (fun n => "Admin" ++ n) (fun d => some (adminDescr d)) refPath (adminSel5 doc pi)

/-- MedusaStoreService.wrapPath, compile-time part: only get and post are
    recognized, the tool name is the bare operation identifier, and the
    description is passed through unmodified. -/
def storeCompile (doc : SchemaDoc) (fuel : Nat) (refPath : String) (pi : PathItem) :
    Option (Except CompileError MTool) :=
  compileAfterSel doc fuel "No name found for the function"
    (fun n => n) (fun d => d) refPath (storeSel5 doc pi)

/-! ## Call-time argument routing (the handler closure, both services) -/

/-- The three per-invocation accumulators of the handler: pathParams,
    queryParams, bodyParams. -/
structure RouteOut : Type where
  pathParams : List (String × String)
  queryParams : List (String × String)
  bodyParams : List (String × String)

/-- One step of the forEach over Object.entries(input): consult the operation's
    parameter list first; a path- or query-located match routes there, any other
    match is dropped; a non-match routes to the body only when it is a declared
    body-field name; everything else is dropped. -/
def classifyStep (parameters : List Parameter) (bodyNames : List String)
    (acc : RouteOut) (kv : String × String) : RouteOut :=
  match parameters.find? (fun p => p.name == kv.1) with
  | some p =>
    if p.loc == "path" then { acc with pathParams := acc.pathParams ++ [kv] }
    else if p.loc == "query" then { acc with queryParams := acc.queryParams ++ [kv] }
    else acc
  | none =>
    if bodyNames.contains kv.1 then { acc with bodyParams := acc.bodyParams ++ [kv] }
    else acc

/-- The full classification pass over the flat argument map (insertion order). -/
def classifyArgs (parameters : List Parameter) (bodyNames : List String)
    (input : List (String × String)) : RouteOut :=
  input.foldl (classifyStep parameters bodyNames) ⟨[], [], []⟩

/-- Whether an argument name routes to path substitution. -/
def isPathArg (parameters : List Parameter) (k : String) : Bool :=
  match parameters.find? (fun p => p.name == k) with
  | some p => p.loc == "path"
  | none => false

/-- Whether an argument name routes to the query string. -/
def isQueryArg (parameters : List Parameter) (k : String) : Bool :=
  match parameters.find? (fun p => p.name == k) with
  | some p => p.loc == "query"
  | none => false

/-- Whether an argument name routes to the request body: it matches no declared
    parameter and is a declared body-field name. -/
def isBodyArg (parameters : List Parameter) (bodyNames : List String) (k : String) : Bool :=
  match parameters.find? (fun p => p.name == k) with
  | some _ => false
  | none => bodyNames.contains k

/-- The second forEach of the handler: replace the first occurrence of each
    routed path value's placeholder in the path template.  Argument values are
    modelled as strings, for which String(value) is the identity. -/
def substitutePath (refPath : String) (pathParams : List (String × String)) : String :=
  pathParams.foldl (fun fp kv => replaceFirst fp ("\x7b" ++ kv.1 ++ "\x7d") kv.2) refPath

/-- The routing performed by one handler invocation: final path, query entries,
    body entries. -/
def routeRequest (refPath : String) (parameters : List Parameter)
    (bodyNames : List String) (input : List (String × String)) :
    String × List (String × String) × List (String × String) :=
  let c := classifyArgs parameters bodyNames input
  (substitutePath refPath c.pathParams, c.queryParams, c.bodyParams)

/-! ## Tool-set assembly and allow-list filtering (src/index.ts main) -/

/-- The allowed-tools.json structure. -/
structure AllowedToolsConfig : Type where
  allowedTools : List String
  allowAllTools : Bool

/-- The filter step of main: when allowAllTools is false and the allowed list is
    non-empty, keep only tools whose name is in the set; otherwise keep all. -/
def filterAllowedTools (cfg : AllowedToolsConfig) (tools : List MTool) : List MTool :=
  if !cfg.allowAllTools && cfg.allowedTools.length != 0 then
    tools.filter (fun t => cfg.allowedTools.contains t.name)
  else tools

/-- The try/catch assembly of main: on success of admin login and both
    defineTools calls, store tools followed by admin tools; any throw falls back
    to the store tools alone (a second throw there propagates). -/
def mainAssembleTools (initRes : Except String Unit)
    (storeTools adminTools : Except String (List MTool)) : Except String (List MTool) :=
  match (initRes.bind fun _ =>
         storeTools.bind fun st =>
         adminTools.bind fun ad => Except.ok (st ++ ad)) with
  | Except.ok ts => Except.ok ts
  | Except.error _ => storeTools

/-! ## Concrete inputs used by witnesses and counterexamples -/

/-- A direct string schema node. -/
def exNodeStr : SchemaNode := .mk none (some "string") none none none

/-- A reference node pointing at table entry B. -/
def exNodeRefB : SchemaNode := .mk (some "#/components/schemas/B") none none none none

/-- A reference node pointing at table entry A. -/
def exNodeRefA : SchemaNode := .mk (some "#/components/schemas/A") none none none none

/-- A schema table whose entry A is itself a reference to entry B. -/
def exDocAB : SchemaDoc := [("A", exNodeRefB), ("B", exNodeStr)]

/-- An object node with properties a and b of which only a is required. -/
def exObjNode : SchemaNode :=
  .mk none (some "object") none (some [("a", exNodeStr), ("b", exNodeStr)]) (some ["a"])

/-- An array node whose items are strings. -/
def exArrNode : SchemaNode := .mk none (some "array") (some exNodeStr) none none

/-- An array node with no items schema. -/
def exArrNoItems : SchemaNode := .mk none (some "array") none none none

/-- A get operation with an identifier, no description, and no parameters
    beyond an empty list. -/
def exPingOp : Operation := ⟨some "PingOp", none, some [], none⟩

/-- A path item declaring only the get operation above. -/
def exPingItem : PathItem := ⟨some exPingOp, none, none⟩

/-- A delete operation carrying a non-empty identifier and a description. -/
def exDeleteOp : Operation := ⟨some "DeleteThing", some "Removes a thing", some [], none⟩

/-- A path item declaring only a delete operation. -/
def exDeleteItem : PathItem := ⟨none, none, some exDeleteOp⟩

/-- A path item with no recognized method at all. -/
def exEmptyItem : PathItem := ⟨none, none, none⟩

/-- The path-located parameter id of the routing example. -/
def exIdParam : Parameter := ⟨"id", "path", none⟩

/-- A header-located parameter. -/
def exHeaderParam : Parameter := ⟨"h1", "header", none⟩

/-- Minimal tool records for the allow-list example. -/
def exToolX : MTool := ⟨"X", none, [], "get", "/x", [], []⟩

def exToolY : MTool := ⟨"Y", none, [], "get", "/y", [], []⟩

def exToolZ : MTool := ⟨"Z", none, [], "get", "/z", [], []⟩

/-! ## Lemmas about the schema compiler -/

theorem typeTag_object : typeTag (some "object") = STag.tObject := rfl

theorem typeTag_array : typeTag (some "array") = STag.tArray := rfl

theorem isOptTop_optWrap (b : Bool) (z : ZodType) (hz : isOptTop z = false) :
    isOptTop (optWrap b z) = b := by
  cases b
  · simpa [optWrap] using hz
  · simp [optWrap, isOptTop]

/-- The shape computed by the switch of convertSchemaPropertyToZod is never
    itself an optional wrapper: optionality is only applied by the final
    makeOptional step. -/
theorem convertCore_notOpt (doc : SchemaDoc) (fuel : Nat) (p? : Option SchemaNode)
    (z : ZodType) (h : convertCore doc fuel p? = some z) : isOptTop z = false := by
  match fuel, p? with
  | 0, _ => simp [convertCore] at h
  | _ + 1, none =>
    simp only [convertCore, Option.some.injEq] at h
    subst h; rfl
  | fuel + 1, some prop =>
    rw [convertCore] at h
    split at h
    · cases h; rfl
    · split at h
      · cases h; rfl
      · cases h; rfl
      · cases h; rfl
      · split at h
        · split at h
          · rcases Option.map_eq_some'.mp h with ⟨c0, _, rfl⟩
            rfl
          · cases h; rfl
        · cases h; rfl
      · split at h
        · rcases Option.map_eq_some'.mp h with ⟨fs, _, rfl⟩
          rfl
        · cases h; rfl
      · cases h; rfl

/-- convertSchemaPropertyToZod produces a top-level optional validator exactly
    when its makeOptional flag is set. -/
theorem convert_optTop (doc : SchemaDoc) (fuel : Nat) (p? : Option SchemaNode)
    (mo : Bool) (z : ZodType) (h : convert doc fuel p? mo = some z) : isOptTop z = mo := by
  unfold convert at h
  rcases Option.map_eq_some'.mp h with ⟨c, hc, rfl⟩
  exact isOptTop_optWrap mo c (convertCore_notOpt doc fuel p? c hc)

/-- Unfolding of the property-map recursion: each produced field pairs the
    property key with the conversion of its schema at the computed flag. -/
theorem mapFields_forall₂ (cnv : SchemaNode → Bool → Option ZodType)
    (req? : Option (List String)) :
    ∀ (props : List (String × SchemaNode)) (fields : List (String × ZodType)),
      mapFields cnv req? props = some fields →
      List.Forall₂ (fun kv fz => fz.1 = kv.1 ∧
        cnv kv.2 (!(reqContains req? kv.1)) = some fz.2) props fields := by
  intro props
  induction props with
  | nil =>
    intro fields h
    simp only [mapFields, Option.some.injEq] at h
    subst h
    exact List.Forall₂.nil
  | cons kv rest ih =>
    intro fields h
    obtain ⟨k, v⟩ := kv
    simp only [mapFields] at h
    rcases hc : cnv v (!(reqContains req? k)) with _ | z
    · rw [hc] at h; simp at h
    · rw [hc] at h
      rcases Option.map_eq_some'.mp h with ⟨tl, htl, rfl⟩
      exact List.Forall₂.cons ⟨rfl, hc⟩ (ih tl htl)

/-! ## Claim theorems: schema compilation (C2, C3, C4) -/

/-- C2 (counterexample): the claim fails when the referenced table entry is
    itself a reference node.  In the table where A maps to a reference to B and
    B maps to a string schema, compiling the reference to A switches on the
    missing type of A's entry and yields the accept-anything validator, while
    compiling the resolved node (A's entry) directly resolves once more and
    yields the string validator. -/
theorem claimC2_counterexample :
    jsTruthyS exNodeRefA.ref? = true ∧
    resolveSchemaRef exDocAB (some exNodeRefA) = some exNodeRefB ∧
    convert exDocAB 3 (some exNodeRefA) false = some ZodType.zAny ∧
    convert exDocAB 3 (some exNodeRefB) false = some ZodType.zString ∧
    convert exDocAB 3 (some exNodeRefA) false ≠ convert exDocAB 3 (some exNodeRefB) false := by
  refine ⟨rfl, rfl, rfl, rfl, ?_⟩
  intro h
  rw [show convert exDocAB 3 (some exNodeRefA) false = some ZodType.zAny from rfl,
      show convert exDocAB 3 (some exNodeRefB) false = some ZodType.zString from rfl] at h
  exact ZodType.noConfusion (Option.some.inj h)

/-- C2 (amended): for every reference node whose target resolves in the schema
    table to a node that is not itself a (truthy) reference, compiling the
    reference equals compiling the resolved node with the same optionality
    flag, at every recursion budget. -/
theorem claimC2_ref_compile (doc : SchemaDoc) (prop rp : SchemaNode) (fuel : Nat) (mo : Bool)
    (h1 : jsTruthyS prop.ref? = true)
    (h2 : resolveSchemaRef doc (some prop) = some rp)
    (h3 : jsTruthyS rp.ref? = false) :
    convert doc fuel (some prop) mo = convert doc fuel (some rp) mo := by
  cases fuel with
  | zero => rfl
  | succ n =>
    unfold convert
    have e1 : resolveStep doc prop = some rp := by
      unfold resolveStep
      rw [h1]
      simpa using h2
    have e2 : resolveStep doc rp = some rp := by
      unfold resolveStep
      rw [h3]
      simp
    simp only [convertCore, e1, e2]

/-- C2 witness: a reference to B in the table resolves to the direct string
    node, and both compilations agree. -/
theorem claimC2_witness :
    jsTruthyS exNodeRefB.ref? = true ∧
    resolveSchemaRef exDocAB (some exNodeRefB) = some exNodeStr ∧
    jsTruthyS exNodeStr.ref? = false ∧
    convert exDocAB 2 (some exNodeRefB) true = convert exDocAB 2 (some exNodeStr) true :=
  ⟨rfl, rfl, rfl, claimC2_ref_compile exDocAB exNodeRefB exNodeStr 2 true rfl rfl rfl⟩

/-- C3: for every object schema node with declared properties, each declared
    property compiles to a field validator whose top-level optionality is the
    negation of membership of the property name in the node's required list,
    regardless of the object's own optionality flag. -/
theorem claimC3_required_optionality (doc : SchemaDoc) (fuel : Nat) (prop rp : SchemaNode)
    (props : List (String × SchemaNode)) (mo : Bool) (r : ZodType)
    (hrs : resolveStep doc prop = some rp)
    (ht : rp.type? = some "object")
    (hp : rp.properties? = some props)
    (h : convert doc (fuel + 1) (some prop) mo = some r) :
    ∃ fields, r = optWrap mo (ZodType.zObject fields) ∧
      List.Forall₂ (fun kv fz => fz.1 = kv.1 ∧
        isOptTop fz.2 = !(reqContains rp.required? kv.1)) props fields := by
  unfold convert at h
  rcases Option.map_eq_some'.mp h with ⟨c, hc, rfl⟩
  simp only [convertCore, hrs, ht, typeTag_object, hp] at hc
  rcases Option.map_eq_some'.mp hc with ⟨fields, hf, rfl⟩
  refine ⟨fields, rfl, ?_⟩
  refine (mapFields_forall₂ _ rp.required? props fields hf).imp ?_
  rintro ⟨k, v⟩ ⟨k', z'⟩ ⟨hk, hcv⟩
  refine ⟨hk, ?_⟩
  rcases Option.map_eq_some'.mp hcv with ⟨c0, hc0, rfl⟩
  exact isOptTop_optWrap _ c0 (convertCore_notOpt doc fuel (some v) c0 hc0)

/-- C3 witness: an object with properties a, b and required a compiles a into a
    non-optional string validator and b into an optional one. -/
theorem claimC3_witness :
    ∃ fields,
      ZodType.zObject [("a", ZodType.zString), ("b", ZodType.zOptional ZodType.zString)] =
        optWrap false (ZodType.zObject fields) ∧
      List.Forall₂ (fun kv fz => fz.1 = kv.1 ∧
        isOptTop fz.2 = !(reqContains exObjNode.required? kv.1))
        [("a", exNodeStr), ("b", exNodeStr)] fields :=
  claimC3_required_optionality [] 1 exObjNode exObjNode [("a", exNodeStr), ("b", exNodeStr)]
    false (ZodType.zObject [("a", ZodType.zString), ("b", ZodType.zOptional ZodType.zString)])
    rfl rfl rfl rfl

/-- C4: for every array schema node, whatever the array's own optionality flag,
    the compiled item validator is never optional at top level; and when the
    items schema is absent, or present as a reference that does not resolve,
    the item validator is the accept-anything validator. -/
theorem claimC4_array_items (doc : SchemaDoc) (fuel : Nat) (prop rp : SchemaNode)
    (mo : Bool) (r : ZodType)
    (hrs : resolveStep doc prop = some rp)
    (ht : rp.type? = some "array")
    (h : convert doc (fuel + 1) (some prop) mo = some r) :
    ∃ it, r = optWrap mo (ZodType.zArray it) ∧ isOptTop it = false ∧
      (rp.items? = none → it = ZodType.zAny) ∧
      (∀ it0, rp.items? = some it0 → resolveStep doc it0 = none → it = ZodType.zAny) := by
  unfold convert at h
  rcases Option.map_eq_some'.mp h with ⟨c, hc, rfl⟩
  simp only [convertCore, hrs, ht, typeTag_array] at hc
  rcases hi : rp.items? with _ | it0
  · simp only [hi] at hc
    cases hc
    exact ⟨ZodType.zAny, rfl, rfl, fun _ => rfl, fun it0 h0 => by simp [hi] at h0⟩
  · simp only [hi] at hc
    rcases hr2 : resolveStep doc it0 with _ | it1
    · simp only [hr2] at hc
      cases hc
      refine ⟨ZodType.zAny, rfl, rfl, fun h0 => by simp at h0, ?_⟩
      intro it0' h0 _
      rfl
    · simp only [hr2] at hc
      rcases Option.map_eq_some'.mp hc with ⟨c0, hc0, rfl⟩
      refine ⟨optWrap false c0, rfl,
        isOptTop_optWrap false c0 (convertCore_notOpt doc fuel (some it1) c0 hc0),
        fun h0 => by simp at h0, ?_⟩
      intro it0' h0 hr'
      rw [Option.some.injEq] at h0
      subst h0
      rw [hr2] at hr'
      exact Option.noConfusion hr'

/-- C4 witness: a string-items array node compiled with the optional flag set
    yields an optional array of a non-optional string validator. -/
theorem claimC4_witness :
    ∃ it, ZodType.zOptional (ZodType.zArray ZodType.zString) = optWrap true (ZodType.zArray it) ∧
      isOptTop it = false ∧
      (exArrNode.items? = none → it = ZodType.zAny) ∧
      (∀ it0, exArrNode.items? = some it0 → resolveStep [] it0 = none → it = ZodType.zAny) :=
  claimC4_array_items [] 1 exArrNode exArrNode true
    (ZodType.zOptional (ZodType.zArray ZodType.zString)) rfl rfl rfl

/-! ## Lemmas about argument routing and map merging -/

/-- The classification pass is a per-entry filter: running the forEach from any
    accumulator appends exactly the path-, query- and body-classified entries. -/
theorem classify_foldl (params : List Parameter) (bn : List String) :
    ∀ (input : List (String × String)) (acc : RouteOut),
      input.foldl (classifyStep params bn) acc =
        ⟨acc.pathParams ++ input.filter (fun kv => isPathArg params kv.1),
         acc.queryParams ++ input.filter (fun kv => isQueryArg params kv.1),
         acc.bodyParams ++ input.filter (fun kv => isBodyArg params bn kv.1)⟩ := by
  intro input
  induction input with
  | nil => intro acc; simp
  | cons kv rest ih =>
    intro acc
    rw [List.foldl_cons, ih]
    obtain ⟨k, v⟩ := kv
    rcases hf : params.find? (fun p => p.name == k) with _ | p
    · by_cases hb : k ∈ bn
      · simp [classifyStep, isPathArg, isQueryArg, isBodyArg, hf, hb, List.filter_cons,
          List.append_assoc]
      · simp [classifyStep, isPathArg, isQueryArg, isBodyArg, hf, hb, List.filter_cons]
    · by_cases hpath : p.loc = "path"
      · have h1 : (p.loc == "path") = true := by simp [hpath]
        have h2 : (p.loc == "query") = false := by simp [hpath]
        simp [classifyStep, isPathArg, isQueryArg, isBodyArg, hf, h1, h2, List.filter_cons,
          List.append_assoc]
      · by_cases hq : p.loc = "query"
        · have h1 : (p.loc == "path") = false := by simp [hpath]
          have h2 : (p.loc == "query") = true := by simp [hq]
          simp [classifyStep, isPathArg, isQueryArg, isBodyArg, hf, h1, h2, List.filter_cons,
            List.append_assoc]
        · have h1 : (p.loc == "path") = false := by simp [hpath]
          have h2 : (p.loc == "query") = false := by simp [hq]
          simp [classifyStep, isPathArg, isQueryArg, isBodyArg, hf, h1, h2, List.filter_cons]

theorem jsMerge_cons {α : Type} (m : List (String × α)) (k1 : String) (v1 : α)
    (rest : List (String × α)) :
    jsMerge m ((k1, v1) :: rest) = jsMerge (jsSet m k1 v1) rest := rfl

theorem lookup_map_replace {α : Type} (k : String) (v : α) :
    ∀ m : List (String × α), (m.lookup k).isSome = true →
      (m.map (fun kv => if kv.1 = k then (k, v) else kv)).lookup k = some v := by
  intro m
  induction m with
  | nil => intro h; simp [List.lookup] at h
  | cons kv rest ih =>
    obtain ⟨k1, v1⟩ := kv
    intro hs
    by_cases hk : k1 = k
    · subst hk
      have hhead : (if ((k1, v1) : String × α).1 = k1 then (k1, v) else (k1, v1)) =
          (k1, v) := by simp
      rw [List.map_cons, hhead]
      simp [List.lookup]
    · have hne : (k == k1) = false := beq_eq_false_iff_ne.mpr (fun h => hk h.symm)
      have hhead : (if ((k1, v1) : String × α).1 = k then (k, v) else (k1, v1)) =
          (k1, v1) := by simp [hk]
      rw [List.map_cons, hhead]
      simp only [List.lookup, hne] at hs ⊢
      exact ih hs

theorem lookup_map_replace_ne {α : Type} (k k' : String) (v : α) (h : k' ≠ k) :
    ∀ m : List (String × α),
      (m.map (fun kv => if kv.1 = k then (k, v) else kv)).lookup k' = m.lookup k' := by
  intro m
  induction m with
  | nil => rfl
  | cons kv rest ih =>
    obtain ⟨k1, v1⟩ := kv
    by_cases hk : k1 = k
    · subst hk
      have hne : (k' == k1) = false := beq_eq_false_iff_ne.mpr h
      have hhead : (if ((k1, v1) : String × α).1 = k1 then (k1, v) else (k1, v1)) =
          (k1, v) := by simp
      rw [List.map_cons, hhead]
      simp only [List.lookup, hne]
      exact ih
    · have hhead : (if ((k1, v1) : String × α).1 = k then (k, v) else (k1, v1)) =
          (k1, v1) := by simp [hk]
      rw [List.map_cons, hhead]
      simp only [List.lookup]
      rcases hbe : (k' == k1) with _ | _
      · simp only [hbe]
        exact ih
      · simp only [hbe]

theorem lookup_append_right {α : Type} (k : String) (v : α) :
    ∀ m : List (String × α), m.lookup k = none → (m ++ [(k, v)]).lookup k = some v := by
  intro m
  induction m with
  | nil => intro _; simp [List.lookup]
  | cons kv rest ih =>
    obtain ⟨k1, v1⟩ := kv
    intro h
    simp only [List.lookup, List.cons_append] at h ⊢
    rcases hbe : (k == k1) with _ | _
    · simp only [hbe] at h ⊢
      exact ih h
    · simp only [hbe] at h
      exact Option.noConfusion h

theorem lookup_append_ne {α : Type} (k k' : String) (v : α) (h : k' ≠ k) :
    ∀ m : List (String × α), (m ++ [(k, v)]).lookup k' = m.lookup k' := by
  intro m
  induction m with
  | nil => simp [List.lookup, beq_eq_false_iff_ne.mpr h]
  | cons kv rest ih =>
    obtain ⟨k1, v1⟩ := kv
    simp only [List.cons_append, List.lookup]
    rcases hbe : (k' == k1) with _ | _
    · simp only [hbe]
      exact ih
    · simp only [hbe]

/-- JavaScript assignment then lookup of the same key yields the assigned
    value. -/
theorem lookup_jsSet_self {α : Type} (m : List (String × α)) (k : String) (v : α) :
    (jsSet m k v).lookup k = some v := by
  unfold jsSet
  rcases hl : m.lookup k with _ | w
  · rw [if_neg (by simp)]
    exact lookup_append_right k v m hl
  · rw [if_pos (by simp)]
    exact lookup_map_replace k v m (by simp [hl])

/-- JavaScript assignment leaves lookups of other keys unchanged. -/
theorem lookup_jsSet_ne {α : Type} (m : List (String × α)) (k : String) (v : α)
    (k' : String) (h : k' ≠ k) : (jsSet m k v).lookup k' = m.lookup k' := by
  unfold jsSet
  rcases hl : m.lookup k with _ | w
  · rw [if_neg (by simp)]
    exact lookup_append_ne k k' v h m
  · rw [if_pos (by simp)]
    exact lookup_map_replace_ne k k' v h m

theorem mem_keys_of_lookup {α : Type} (k : String) (w : α) :
    ∀ m : List (String × α), m.lookup k = some w → k ∈ m.map Prod.fst := by
  intro m
  induction m with
  | nil => intro h; simp [List.lookup] at h
  | cons kv rest ih =>
    obtain ⟨k1, v1⟩ := kv
    intro h
    simp only [List.lookup] at h
    rcases hbe : (k == k1) with _ | _
    · simp only [hbe] at h
      simp [ih h]
    · have hk : k = k1 := beq_iff_eq.mp hbe
      simp [hk]

/-- A spread over entries that do not contain the key leaves its lookup
    unchanged. -/
theorem jsMerge_lookup_none {α : Type} :
    ∀ (b m : List (String × α)) (k : String), b.lookup k = none →
      (jsMerge m b).lookup k = m.lookup k := by
  intro b
  induction b with
  | nil => intro m k _; rfl
  | cons kv rest ih =>
    intro m k h
    obtain ⟨k1, v1⟩ := kv
    simp only [List.lookup] at h
    rcases hbe : (k == k1) with _ | _
    · simp only [hbe] at h
      have hne : k ≠ k1 := beq_eq_false_iff_ne.mp hbe
      rw [jsMerge_cons, ih (jsSet m k1 v1) k h]
      exact lookup_jsSet_ne m k1 v1 k hne
    · simp only [hbe] at h
      exact Option.noConfusion h

/-- Body-field entries win in the spread merge: when the overriding map holds
    the key (its keys being distinct), the merged lookup is its value. -/
theorem jsMerge_lookup_right {α : Type} :
    ∀ (b m : List (String × α)) (k : String) (v : α),
      (b.map Prod.fst).Nodup → b.lookup k = some v →
      (jsMerge m b).lookup k = some v := by
  intro b
  induction b with
  | nil => intro m k v _ h; simp [List.lookup] at h
  | cons kv rest ih =>
    intro m k v hnd h
    obtain ⟨k1, v1⟩ := kv
    simp only [List.map_cons, List.nodup_cons] at hnd
    simp only [List.lookup] at h
    rcases hbe : (k == k1) with _ | _
    · simp only [hbe] at h
      rw [jsMerge_cons]
      exact ih (jsSet m k1 v1) k v hnd.2 h
    · simp only [hbe] at h
      have hk : k = k1 := beq_iff_eq.mp hbe
      subst hk
      have hv : v1 = v := Option.some.inj h
      subst hv
      have hrest : rest.lookup k = none := by
        rcases hr : rest.lookup k with _ | w
        · rfl
        · exact absurd (mem_keys_of_lookup k w rest hr) hnd.1
      rw [jsMerge_cons, jsMerge_lookup_none rest (jsSet m k v1) k hrest]
      exact lookup_jsSet_self m k v1

/-- The classification of a whole argument map, as three filters. -/
theorem classifyArgs_eq (params : List Parameter) (bn : List String)
    (input : List (String × String)) :
    classifyArgs params bn input =
      ⟨input.filter (fun kv => isPathArg params kv.1),
       input.filter (fun kv => isQueryArg params kv.1),
       input.filter (fun kv => isBodyArg params bn kv.1)⟩ := by
  unfold classifyArgs
  rw [classify_foldl params bn input ⟨[], [], []⟩]
  simp

/-! ## Claim theorems: argument routing (C5, C10) -/

/-- C5: at call time each argument routes by its name: to path substitution
    when it matches a path-located parameter, to the query when it matches a
    query-located parameter, to the body when it matches no parameter but is a
    declared body-field name, and is silently dropped otherwise; routed path
    values replace the first occurrence of their placeholder in the template.
    The concrete instance of the claim (template /items/{id}, path parameter
    id, body field name, arguments id, name, extra) and a first-occurrence
    demonstration are included. -/
theorem claimC5_argument_routing :
    (∀ (params : List Parameter) (bn : List String) (input : List (String × String))
       (refPath : String),
      classifyArgs params bn input =
        ⟨input.filter (fun kv => isPathArg params kv.1),
         input.filter (fun kv => isQueryArg params kv.1),
         input.filter (fun kv => isBodyArg params bn kv.1)⟩ ∧
      routeRequest refPath params bn input =
        (substitutePath refPath (input.filter (fun kv => isPathArg params kv.1)),
         input.filter (fun kv => isQueryArg params kv.1),
         input.filter (fun kv => isBodyArg params bn kv.1))) ∧
    routeRequest "/items/{id}" [exIdParam] ["name"]
        [("id", "42"), ("name", "widget"), ("extra", "x")] =
      ("/items/42", [], [("name", "widget")]) ∧
    routeRequest "/p/{id}/{id}" [exIdParam] [] [("id", "7")] = ("/p/7/{id}", [], []) := by
  refine ⟨?_, rfl, rfl⟩
  intro params bn input refPath
  exact ⟨classifyArgs_eq params bn input, by
    unfold routeRequest
    rw [classifyArgs_eq params bn input]⟩

/-- C10: the router consults the parameter list before the body-field names:
    an argument matching a parameter located neither at path nor at query (for
    example a header parameter) is dropped entirely, never routed to the body,
    even when a body field of the same name is declared; whereas in the
    compile-time spread merge of the input schema a body field overwrites a
    same-named parameter field. -/
theorem claimC10_param_precedence :
    (∀ (params : List Parameter) (bn : List String) (input : List (String × String))
       (k : String) (p : Parameter),
      params.find? (fun q => q.name == k) = some p →
      p.loc ≠ "path" → p.loc ≠ "query" →
      k ∉ (classifyArgs params bn input).pathParams.map Prod.fst ∧
      k ∉ (classifyArgs params bn input).queryParams.map Prod.fst ∧
      k ∉ (classifyArgs params bn input).bodyParams.map Prod.fst) ∧
    (∀ (a b : List (String × ZodType)) (k : String) (v : ZodType),
      (b.map Prod.fst).Nodup → b.lookup k = some v → (jsMerge a b).lookup k = some v) := by
  constructor
  · intro params bn input k p hf hpa hq
    rw [classifyArgs_eq params bn input]
    have hpath : isPathArg params k = false := by
      simp [isPathArg, hf, hpa]
    have hquery : isQueryArg params k = false := by
      simp [isQueryArg, hf, hq]
    have hbody : isBodyArg params bn k = false := by
      simp [isBodyArg, hf]
    refine ⟨?_, ?_, ?_⟩ <;>
      · intro hmem
        rcases List.mem_map.mp hmem with ⟨⟨k0, v0⟩, hin, hk0⟩
        rcases List.mem_filter.mp hin with ⟨_, hpred⟩
        subst hk0
        simp_all
  · intro a b k v hnd hl
    exact jsMerge_lookup_right b a k v hnd hl

/-- C10 witness: with a header parameter h1 that is also a declared body field,
    the argument h1 reaches none of the three routing outputs, while in the
    schema merge the body entry for h1 wins. -/
theorem claimC10_witness :
    ("h1" ∉ (classifyArgs [exHeaderParam] ["h1"] [("h1", "v")]).bodyParams.map Prod.fst) ∧
    (jsMerge [("h1", ZodType.zString)] [("h1", ZodType.zNumber)]).lookup "h1" =
      some ZodType.zNumber := by
  constructor
  · exact (claimC10_param_precedence.1 [exHeaderParam] ["h1"] [("h1", "v")] "h1" exHeaderParam
      rfl (by decide) (by decide)).2.2
  · exact claimC10_param_precedence.2 [("h1", ZodType.zString)] [("h1", ZodType.zNumber)]
      "h1" ZodType.zNumber (by simp) rfl

/-! ## Lemmas about wrapPath compilation -/

/-- A successfully compiled tool record carries the selected name, description
    policy, method and path. -/
theorem compileAfterSel_ok (doc : SchemaDoc) (fuel : Nat) (msg : String)
    (mkName : String → String) (mkDescr : Option String → Option String) (refPath : String)
    (sel : String × Option String × Option String × ParamsVal × Option SchemaNode) (t : MTool)
    (h : compileAfterSel doc fuel msg mkName mkDescr refPath sel = some (Except.ok t)) :
    jsTruthyS sel.2.1 = true ∧ t.name = mkName (sel.2.1.getD "") ∧
    t.description? = mkDescr sel.2.2.1 ∧ t.method = sel.1 ∧ t.refPath = refPath := by
  obtain ⟨m, n?, d?, pv, rb?⟩ := sel
  simp only [compileAfterSel] at h
  by_cases hn : jsTruthyS n? = true
  · rw [if_pos hn] at h
    rcases pv with ps | _ | _
    · rcases hps : buildParamSchema doc fuel (ps.filter (fun p => p.loc != "header"))
        with _ | pS
      · simp only [hps] at h
        exact Option.noConfusion h
      · simp only [hps] at h
        rcases hbs : buildBodySchema doc fuel rb? with _ | bS
        · simp only [hbs] at h
          exact Option.noConfusion h
        · simp only [hbs, Option.some.injEq] at h
          have ht := (Except.ok.inj h).symm
          subst ht
          exact ⟨hn, rfl, rfl, rfl, rfl⟩
    · simp at h
    · simp at h
  · rw [if_neg hn] at h
    simp at h

/-- A compilation outcome is the no-name error exactly when the selected
    operation identifier is falsy. -/
theorem compileAfterSel_noName (doc : SchemaDoc) (fuel : Nat) (msg : String)
    (mkName : String → String) (mkDescr : Option String → Option String) (refPath : String)
    (sel : String × Option String × Option String × ParamsVal × Option SchemaNode)
    (r : Except CompileError MTool)
    (h : compileAfterSel doc fuel msg mkName mkDescr refPath sel = some r) :
    (r = Except.error (CompileError.jsError msg) ↔ jsTruthyS sel.2.1 = false) := by
  obtain ⟨m, n?, d?, pv, rb?⟩ := sel
  simp only [compileAfterSel] at h
  by_cases hn : jsTruthyS n? = true
  · rw [if_pos hn] at h
    constructor
    · intro hr
      subst hr
      exfalso
      rcases pv with ps | _ | _
      · rcases hps : buildParamSchema doc fuel (ps.filter (fun p => p.loc != "header"))
          with _ | pS
        · simp only [hps] at h
          exact Option.noConfusion h
        · simp only [hps] at h
          rcases hbs : buildBodySchema doc fuel rb? with _ | bS
          · simp only [hbs] at h
            exact Option.noConfusion h
          · simp only [hbs] at h
            simp at h
      · simp at h
      · simp at h
    · intro hfalse
      rw [hn] at hfalse
      exact absurd hfalse (by simp)
  · rw [if_neg hn] at h
    have hr : r = Except.error (CompileError.jsError msg) := (Option.some.inj h).symm
    have hf : jsTruthyS n? = false := by
      rcases hb : jsTruthyS n? with _ | _
      · rfl
      · exact absurd hb hn
    exact ⟨fun _ => hf, fun _ => hr⟩

theorem adminSel5_name (doc : SchemaDoc) (pi : PathItem) :
    (adminSel5 doc pi).2.1 = adminSelName pi := by
  obtain ⟨g?, p?, d?⟩ := pi
  cases g? <;> cases p? <;> cases d? <;> rfl

theorem storeSel5_name (doc : SchemaDoc) (pi : PathItem) :
    (storeSel5 doc pi).2.1 = storeSelName pi := by
  obtain ⟨g?, p?, d?⟩ := pi
  cases g? <;> cases p? <;> cases d? <;> rfl

theorem adminSel5_sel (doc : SchemaDoc) (pi : PathItem) (m : String) (op : Operation)
    (h : adminSelect pi = some (m, op)) :
    (adminSel5 doc pi).1 = m ∧ (adminSel5 doc pi).2.1 = op.operationId ∧
    (adminSel5 doc pi).2.2.1 = op.description := by
  obtain ⟨g?, p?, d?⟩ := pi
  cases g? <;> cases p? <;> cases d? <;>
    simp only [adminSelect, Option.some.injEq, Prod.mk.injEq] at h <;>
    first
      | exact Option.noConfusion h
      | (obtain ⟨h1, h2⟩ := h; subst h1; subst h2; exact ⟨rfl, rfl, rfl⟩)

theorem storeSel5_sel (doc : SchemaDoc) (pi : PathItem) (m : String) (op : Operation)
    (h : storeSelect pi = some (m, op)) :
    (storeSel5 doc pi).1 = m ∧ (storeSel5 doc pi).2.1 = op.operationId ∧
    (storeSel5 doc pi).2.2.1 = op.description := by
  obtain ⟨g?, p?, d?⟩ := pi
  cases g? <;> cases p? <;> cases d? <;>
    simp only [storeSelect, Option.some.injEq, Prod.mk.injEq] at h <;>
    first
      | exact Option.noConfusion h
      | (obtain ⟨h1, h2⟩ := h; subst h1; subst h2; exact ⟨rfl, rfl, rfl⟩)

/-- A successful admin compilation selected an operation by the get, post,
    delete chain and used its identifier and description. -/
theorem adminCompile_ok (doc : SchemaDoc) (fuel : Nat) (path : String) (pi : PathItem)
    (t : MTool) (h : adminCompile doc fuel path pi = some (Except.ok t)) :
    ∃ m op, adminSelect pi = some (m, op) ∧ t.name = "Admin" ++ op.operationId.getD "" ∧
      t.description? = some (adminDescr op.description) ∧ t.method = m := by
  unfold adminCompile at h
  have hok := compileAfterSel_ok doc fuel ("No name found for path: " ++ path)
    (fun n => "Admin" ++ n) (fun d => some (adminDescr d)) path (adminSel5 doc pi) t h
  have hname : jsTruthyS (adminSelName pi) = true := by
    rw [← adminSel5_name doc pi]
    exact hok.1
  rcases hsel : adminSelect pi with _ | ⟨m, op⟩
  · unfold adminSelName at hname
    rw [hsel] at hname
    simp [jsTruthyS] at hname
  · obtain ⟨h1, h2, h3⟩ := adminSel5_sel doc pi m op hsel
    refine ⟨m, op, rfl, ?_, ?_, ?_⟩
    · rw [hok.2.1, h2]
    · rw [hok.2.2.1, h3]
    · rw [hok.2.2.2.1, h1]

/-- A successful store compilation selected an operation by the get, post chain
    and used its bare identifier and raw description. -/
theorem storeCompile_ok (doc : SchemaDoc) (fuel : Nat) (path : String) (pi : PathItem)
    (t : MTool) (h : storeCompile doc fuel path pi = some (Except.ok t)) :
    ∃ m op, storeSelect pi = some (m, op) ∧ t.name = op.operationId.getD "" ∧
      t.description? = op.description ∧ t.method = m := by
  unfold storeCompile at h
  have hok := compileAfterSel_ok doc fuel "No name found for the function"
    (fun n => n) (fun d => d) path (storeSel5 doc pi) t h
  have hname : jsTruthyS (storeSelName pi) = true := by
    rw [← storeSel5_name doc pi]
    exact hok.1
  rcases hsel : storeSelect pi with _ | ⟨m, op⟩
  · unfold storeSelName at hname
    rw [hsel] at hname
    simp [jsTruthyS] at hname
  · obtain ⟨h1, h2, h3⟩ := storeSel5_sel doc pi m op hsel
    refine ⟨m, op, rfl, ?_, ?_, ?_⟩
    · rw [hok.2.1, h2]
    · rw [hok.2.2.1, h3]
    · rw [hok.2.2.2.1, h1]

/-! ## Claim theorems: operation selection, no-name error, descriptions
    (C1, C7, C8) -/

/-- C1 (counterexample): on the store surface a path defining only a delete
    operation, with a non-empty identifier, does not compile to a tool using
    that identifier: the store chain recognizes only get and post, leaves the
    name undefined, and compilation raises the no-name error. -/
theorem claimC1_counterexample :
    exDeleteItem.delete? = some exDeleteOp ∧
    exDeleteOp.operationId = some "DeleteThing" ∧
    storeCompile [] 1 "/things" exDeleteItem =
      some (Except.error (CompileError.jsError "No name found for the function")) ∧
    adminCompile [] 1 "/things" exDeleteItem =
      some (Except.ok
        { name := "AdminDeleteThing"
          description? := some "This tool helps store administors. Removes a thing"
          inputSchema := []
          method := "delete"
          refPath := "/things"
          parameters := []
          bodyNames := [] }) :=
  ⟨rfl, rfl, rfl, rfl⟩

/-- C1 (amended): operation selection is by strict precedence: get, then post,
    then delete on the admin surface, but only get, then post on the store
    surface, where a delete-only path raises the no-name error instead of
    compiling.  Non-selected operations are ignored entirely, and a resulting
    tool uses the selected operation's identifier and description. -/
theorem claimC1_method_precedence :
    (∀ (doc : SchemaDoc) (fuel : Nat) (path : String) (g : Operation)
       (p? d? : Option Operation),
      adminCompile doc fuel path ⟨some g, p?, d?⟩ = adminCompile doc fuel path ⟨some g, none, none⟩) ∧
    (∀ (doc : SchemaDoc) (fuel : Nat) (path : String) (p : Operation) (d? : Option Operation),
      adminCompile doc fuel path ⟨none, some p, d?⟩ = adminCompile doc fuel path ⟨none, some p, none⟩) ∧
    (∀ (doc : SchemaDoc) (fuel : Nat) (path : String) (g : Operation)
       (p? d? : Option Operation),
      storeCompile doc fuel path ⟨some g, p?, d?⟩ = storeCompile doc fuel path ⟨some g, none, none⟩) ∧
    (∀ (doc : SchemaDoc) (fuel : Nat) (path : String) (p : Operation) (d? : Option Operation),
      storeCompile doc fuel path ⟨none, some p, d?⟩ = storeCompile doc fuel path ⟨none, some p, none⟩) ∧
    (∀ (doc : SchemaDoc) (fuel : Nat) (path : String) (pi : PathItem) (t : MTool),
      adminCompile doc fuel path pi = some (Except.ok t) →
      ∃ m op, adminSelect pi = some (m, op) ∧ t.name = "Admin" ++ op.operationId.getD "" ∧
        t.description? = some (adminDescr op.description) ∧ t.method = m) ∧
    (∀ (doc : SchemaDoc) (fuel : Nat) (path : String) (pi : PathItem) (t : MTool),
      storeCompile doc fuel path pi = some (Except.ok t) →
      ∃ m op, storeSelect pi = some (m, op) ∧ t.name = op.operationId.getD "" ∧
        t.description? = op.description ∧ t.method = m) ∧
    (∀ (doc : SchemaDoc) (fuel : Nat) (path : String) (d : Operation),
      storeCompile doc fuel path ⟨none, none, some d⟩ =
        some (Except.error (CompileError.jsError "No name found for the function"))) :=
  ⟨fun _ _ _ _ _ _ => rfl, fun _ _ _ _ _ => rfl, fun _ _ _ _ _ _ => rfl, fun _ _ _ _ _ => rfl,
   fun doc fuel path pi t h => adminCompile_ok doc fuel path pi t h,
   fun doc fuel path pi t h => storeCompile_ok doc fuel path pi t h,
   fun _ _ _ _ => rfl⟩

/-- C1 witness: the get-only ping path compiles on the admin surface to a tool
    named from the selected get operation. -/
theorem claimC1_witness :
    ∃ m op, adminSelect exPingItem = some (m, op) ∧
      (({ name := "AdminPingOp"
          description? := some "This tool helps store administors. undefined"
          inputSchema := []
          method := "get"
          refPath := "/ping"
          parameters := []
          bodyNames := [] } : MTool)).name = "Admin" ++ op.operationId.getD "" ∧
      (({ name := "AdminPingOp"
          description? := some "This tool helps store administors. undefined"
          inputSchema := []
          method := "get"
          refPath := "/ping"
          parameters := []
          bodyNames := [] } : MTool)).description? = some (adminDescr op.description) ∧
      (({ name := "AdminPingOp"
          description? := some "This tool helps store administors. undefined"
          inputSchema := []
          method := "get"
          refPath := "/ping"
          parameters := []
          bodyNames := [] } : MTool)).method = m :=
  claimC1_method_precedence.2.2.2.2.1 [] 0 "/ping" exPingItem _ rfl

/-- C7: a path whose selected operation identifier is falsy (no operation with
    a recognized method, or a missing or empty operationId) makes wrapPath
    raise the no-name error, and a truthy identifier never yields that error;
    this holds on both surfaces, each with its own selection chain and
    message. -/
theorem claimC7_missing_name (doc : SchemaDoc) (fuel : Nat) (path : String) (pi : PathItem) :
    (∀ r, adminCompile doc fuel path pi = some r →
      (r = Except.error (CompileError.jsError ("No name found for path: " ++ path)) ↔
       jsTruthyS (adminSelName pi) = false)) ∧
    (∀ r, storeCompile doc fuel path pi = some r →
      (r = Except.error (CompileError.jsError "No name found for the function") ↔
       jsTruthyS (storeSelName pi) = false)) := by
  constructor
  · intro r h
    unfold adminCompile at h
    rw [← adminSel5_name doc pi]
    exact compileAfterSel_noName doc fuel ("No name found for path: " ++ path)
      (fun n => "Admin" ++ n) (fun d => some (adminDescr d)) path (adminSel5 doc pi) r h
  · intro r h
    unfold storeCompile at h
    rw [← storeSel5_name doc pi]
    exact compileAfterSel_noName doc fuel "No name found for the function"
      (fun n => n) (fun d => d) path (storeSel5 doc pi) r h

/-- C7 witness: a path item with no recognized method raises the admin no-name
    error, and the get-only ping path with a non-empty identifier does not. -/
theorem claimC7_witness :
    adminCompile [] 1 "/p" exEmptyItem =
      some (Except.error (CompileError.jsError "No name found for path: /p")) ∧
    jsTruthyS (adminSelName exPingItem) = true := by
  constructor
  · have h := ((claimC7_missing_name [] 1 "/p" exEmptyItem).1
      (Except.error (CompileError.jsError "No name found for path: /p")) rfl).mpr rfl
    exact rfl
  · rfl

/-- C8 (counterexample): an admin operation declaring no description compiles
    to a tool whose description interpolates undefined, so the description
    contains the literal text "undefined" instead of falling back to empty. -/
theorem claimC8_counterexample :
    adminCompile [] 0 "/ping" exPingItem =
      some (Except.ok
        { name := "AdminPingOp"
          description? := some "This tool helps store administors. undefined"
          inputSchema := []
          method := "get"
          refPath := "/ping"
          parameters := []
          bodyNames := [] }) ∧
    jsIncludes "This tool helps store administors. undefined" "undefined" = true ∧
    "This tool helps store administors. undefined" ≠ "This tool helps store administors. " :=
  ⟨rfl, rfl, by decide⟩

/-- C8 (amended): an admin tool's description is the fixed preamble followed by
    the template-literal interpolation of the declared description, which is
    the text "undefined" when none is declared; a store tool's description is
    the declared description passed through unchanged (absent stays absent). -/
theorem claimC8_description (doc : SchemaDoc) (fuel : Nat) (path : String) (pi : PathItem)
    (t t' : MTool) :
    (adminCompile doc fuel path pi = some (Except.ok t) →
      ∃ m op, adminSelect pi = some (m, op) ∧
        t.description? = some ("This tool helps store administors. " ++ jsUndefStr op.description)) ∧
    (storeCompile doc fuel path pi = some (Except.ok t') →
      ∃ m op, storeSelect pi = some (m, op) ∧ t'.description? = op.description) := by
  constructor
  · intro h
    obtain ⟨m, op, hsel, _, hd, _⟩ := adminCompile_ok doc fuel path pi t h
    exact ⟨m, op, hsel, hd⟩
  · intro h
    obtain ⟨m, op, hsel, _, hd, _⟩ := storeCompile_ok doc fuel path pi t' h
    exact ⟨m, op, hsel, hd⟩

/-- C8 witness: the description clauses at the ping path on both surfaces. -/
theorem claimC8_witness :
    (∃ m op, adminSelect exPingItem = some (m, op) ∧
      (some "This tool helps store administors. undefined" : Option String) =
        some ("This tool helps store administors. " ++ jsUndefStr op.description)) ∧
    (∃ m op, storeSelect exPingItem = some (m, op) ∧
      (none : Option String) = op.description) := by
  constructor
  · obtain ⟨m, op, hsel, hd⟩ := (claimC8_description [] 0 "/ping" exPingItem
      { name := "AdminPingOp"
        description? := some "This tool helps store administors. undefined"
        inputSchema := []
        method := "get"
        refPath := "/ping"
        parameters := []
        bodyNames := [] }
      { name := "PingOp"
        description? := none
        inputSchema := []
        method := "get"
        refPath := "/ping"
        parameters := []
        bodyNames := [] }).1 rfl
    exact ⟨m, op, hsel, hd⟩
  · obtain ⟨m, op, hsel, hd⟩ := (claimC8_description [] 0 "/ping" exPingItem
      { name := "AdminPingOp"
        description? := some "This tool helps store administors. undefined"
        inputSchema := []
        method := "get"
        refPath := "/ping"
        parameters := []
        bodyNames := [] }
      { name := "PingOp"
        description? := none
        inputSchema := []
        method := "get"
        refPath := "/ping"
        parameters := []
        bodyNames := [] }).2 rfl
    exact ⟨m, op, hsel, hd⟩

/-! ## Claim theorems: assembly and filtering (C6, C9) -/

/-- C6: when allowAllTools is false and the allowed-name list is non-empty, the
    final sequence is exactly the tools whose name is in the allowed set, in
    their original relative order (a filter, hence a sublist); otherwise the
    sequence is retained unmodified. -/
theorem claimC6_allowlist (cfg : AllowedToolsConfig) (tools : List MTool) :
    (cfg.allowAllTools = false → cfg.allowedTools ≠ [] →
      (filterAllowedTools cfg tools =
        tools.filter (fun t => cfg.allowedTools.contains t.name) ∧
       List.Sublist (filterAllowedTools cfg tools) tools ∧
       ∀ t, t ∈ filterAllowedTools cfg tools ↔
         t ∈ tools ∧ cfg.allowedTools.contains t.name = true)) ∧
    (cfg.allowAllTools = true → filterAllowedTools cfg tools = tools) ∧
    (cfg.allowedTools = [] → filterAllowedTools cfg tools = tools) := by
  refine ⟨?_, ?_, ?_⟩
  · intro hA hT
    have hcond : (!cfg.allowAllTools && cfg.allowedTools.length != 0) = true := by
      simp [hA, hT]
    have hfe : filterAllowedTools cfg tools =
        tools.filter (fun t => cfg.allowedTools.contains t.name) := by
      unfold filterAllowedTools
      rw [if_pos hcond]
    refine ⟨hfe, ?_, ?_⟩
    · rw [hfe]
      exact List.filter_sublist tools
    · intro t
      rw [hfe]
      exact List.mem_filter
  · intro hA
    unfold filterAllowedTools
    rw [if_neg (by simp [hA])]
  · intro hT
    unfold filterAllowedTools
    rw [if_neg (by simp [hT])]

/-- C6 witness: with allowAllTools false and allowed list X, the sequence
    X, Y, Z filters to exactly X. -/
theorem claimC6_witness :
    filterAllowedTools ⟨["X"], false⟩ [exToolX, exToolY, exToolZ] = [exToolX] := by
  have h := ((claimC6_allowlist ⟨["X"], false⟩ [exToolX, exToolY, exToolZ]).1 rfl
    (by simp)).1
  rw [h]
  rfl

/-- C9: if admin credential acquisition fails, the assembled tool set is
    exactly the store surface's tools, without the error propagating; if it
    succeeds and both surfaces compile, the assembled set is the store tools
    followed by the admin tools. -/
theorem claimC9_login_fallback (e : String) (sl al : List MTool)
    (ad : Except String (List MTool)) :
    mainAssembleTools (Except.error e) (Except.ok sl) ad = Except.ok sl ∧
    mainAssembleTools (Except.ok ()) (Except.ok sl) (Except.ok al) = Except.ok (sl ++ al) :=
  ⟨rfl, rfl⟩

end MedusaMcp
